import Mathlib

/-!
Verification of the measurement-normalization pipeline of a Proxmox
hardware-metrics collector (`pve_hardware_metrics.py`).

The Python data values flowing through the pipeline (the output of
`json.loads` and the measurement records) are shallowly embedded as `PyVal`.
Python floats are modelled as exact rationals: every concrete float handled
by the pipeline in this development is exactly representable, and no float
arithmetic other than int-to-float conversion occurs in the modelled code.

Python exceptions are modelled by `Option`: a function returns `Option.none`
exactly when the corresponding Python code raises (KeyError, TypeError,
AttributeError, json.JSONDecodeError).  The raw stdout of an external tool,
fed to `json.loads`, is modelled as an `Option PyVal`: `Option.none` stands
for text that is not valid JSON (so `json.loads` raises `JSONDecodeError`),
`some v` for text parsing to the JSON value `v`.
-/

/-- Fuel-driven Euclidean gcd; the fuel only bounds the recursion depth and
`natGcdF` supplies `a + 1`, which always suffices since the first argument
strictly decreases at every step. -/
def gcdF : Nat → Nat → Nat → Nat
  | 0, a, b => a + b
  | fuel + 1, a, b => if a = 0 then b else gcdF fuel (b % a) a
/-- `Nat.gcd`, restated so it reduces inside the kernel. -/
def natGcdF (a b : Nat) : Nat := gcdF (a + 1) a b
/-- An exact rational in lowest terms (`den` positive, gcd 1), standing for
a Python float.  Every value constructed by this development is normalized,
so structural equality is value equality. -/
structure PyRat where
  num : Int
  den : Nat
deriving DecidableEq
/-- The normalized fraction `n / d` (`d ≠ 0` at every use site). -/
def PyRat.norm (n : Int) (d : Nat) : PyRat :=
  let g := natGcdF n.natAbs d
  if g = 0 then ⟨0, 1⟩ else ⟨n / (g : Int), d / g⟩
/-- Python `float(n)` for an integer `n` (exact for every value handled by
the pipeline). -/
def PyRat.ofInt (n : Int) : PyRat := ⟨n, 1⟩
/-- Exact rational addition, normalizing the result. -/
def PyRat.add (a b : PyRat) : PyRat :=
  PyRat.norm (a.num * (b.den : Int) + b.num * (a.den : Int)) (a.den * b.den)
instance : Add PyRat := ⟨PyRat.add⟩
instance (n : Nat) : OfNat PyRat n := ⟨⟨Int.ofNat n, 1⟩⟩
/-- A Python/JSON value as produced by `json.loads` and manipulated by the
normalizers.  `float` carries an exact rational (see module comment). -/
inductive PyVal where
  | int : Int → PyVal
  | float : PyRat → PyVal
  | str : String → PyVal
  | bool : Bool → PyVal
  | null : PyVal
  | list : List PyVal → PyVal
  | dict : List (String × PyVal) → PyVal
/-- One output measurement record (`{"measurement": ..., "tags": ...,
"fields": ...}` in the source). -/
structure Measurement where
  measurement : String
  tags : List (String × PyVal)
  fields : List (String × PyVal)
/-- First-occurrence lookup in a Python dict (association list).  Python
dict keys are unique, so first-occurrence is exact. -/
def lookupKV : List (String × PyVal) → String → Option PyVal
  | [], _ => Option.none
  | p :: rest, k => if p.1 = k then some p.2 else lookupKV rest k
/-- `d[k] = v` on a Python dict: replace the value at an existing key in
place, otherwise append the new pair (insertion order is preserved). -/
def insertKV : List (String × PyVal) → String → PyVal → List (String × PyVal)
  | [], k, v => [(k, v)]
  | p :: rest, k, v => if p.1 = k then (k, v) :: rest else p :: insertKV rest k v
/-- Python `for x in obj`: lists iterate their elements, dicts their keys
(as strings), strings their characters (as 1-character strings); other
values raise `TypeError`. -/
def pyIter : PyVal → Option (List PyVal)
  | PyVal.list xs => some xs
  | PyVal.dict kvs => some (kvs.map (fun p => PyVal.str p.1))
  | PyVal.str s => some (s.data.map (fun c => PyVal.str (String.mk [c])))
  | _ => Option.none
/-- Python `v == s` for a string literal `s`: equal strings compare `True`,
any non-string value compares `False` (no exception). -/
def pyEqStr (v : PyVal) (s : String) : Bool :=
  match v with
  | PyVal.str t => t = s
  | _ => false
/-- Python `v == n` for an int literal `n`: ints, floats and bools compare
numerically (`194 == 194.0` is `True`), other values compare `False`. -/
def pyEqNat (v : PyVal) (n : Nat) : Bool :=
  match v with
  | PyVal.int m => m = (n : Int)
  | PyVal.float q => q = PyRat.ofInt (n : Int)
  | PyVal.bool b => (if b then (1 : Nat) else 0) = n
  | _ => false
/-- Is the value a Python `int` or `float` (the numeric field types)? -/
def PyVal.isNum : PyVal → Bool
  | PyVal.int _ => true
  | PyVal.float _ => true
  | _ => false
/-- Is the value a Python `list` (`isinstance(value, list)`)? -/
def PyVal.isList : PyVal → Bool
  | PyVal.list _ => true
  | _ => false
/-- A numeric value usable on the right of `total += v` (Python accepts
int, float and bool), converted to an exact rational. -/
def pyToPyRat : PyVal → Option PyRat
  | PyVal.int n => some (PyRat.ofInt n)
  | PyVal.float q => some q
  | PyVal.bool b => some (if b then PyRat.ofInt 1 else PyRat.ofInt 0)
  | _ => Option.none
/-- ASCII `str.lower()` (every key handled by the pipeline is ASCII). -/
def lowerStr (s : String) : String :=
  String.mk (s.data.map Char.toLower)
/-- `str.replace(" ", "_")`. -/
def underscoreSpaces (s : String) : String :=
  String.mk (s.data.map (fun c => if c = ' ' then '_' else c))
/-- `str.replace("-", "_")`. -/
def underscoreHyphens (s : String) : String :=
  String.mk (s.data.map (fun c => if c = '-' then '_' else c))
/-- `s.split("-")[0]`: the prefix before the first hyphen. -/
def beforeHyphen (s : String) : String :=
  String.mk (s.data.takeWhile (fun c => ¬ c = '-'))
/-- `s.startswith(pre)`. -/
def strStartsWith (s pre : String) : Bool :=
  pre.data.isPrefixOf s.data
/-- Substring containment, `needle in hay` on Python strings. -/
def containsSub (hay needle : List Char) : Bool :=
  needle.isPrefixOf hay ||
    match hay with
    | [] => false
    | _ :: t => containsSub t needle
/-- Fuel-driven worker for `stripTemp`; the fuel is consumed one unit per
examined position, and `stripTemp` supplies `l.length`, which is always
enough. -/
def stripTempFuel : Nat → List Char → List Char
  | 0, l => l
  | _ + 1, [] => []
  | fuel + 1, 't' :: 'e' :: 'm' :: 'p' :: after =>
    if (after.takeWhile Char.isDigit).isEmpty then
      't' :: stripTempFuel fuel ('e' :: 'm' :: 'p' :: after)
    else
      match after.dropWhile Char.isDigit with
      | '_' :: tail => 't' :: 'e' :: 'm' :: 'p' :: '_' :: stripTempFuel fuel tail
      | _ => 't' :: stripTempFuel fuel ('e' :: 'm' :: 'p' :: after)
  | fuel + 1, c :: cs => c :: stripTempFuel fuel cs
/-- `re.sub(r"temp\d+_", "temp_", s)`: replace every non-overlapping
occurrence of the literal `temp`, followed by one or more decimal digits,
followed by `_`, with `temp_`, scanning left to right. -/
def stripTemp (l : List Char) : List Char :=
  stripTempFuel l.length l
/-- The field key built for one (grouping key, reading label) pair of a
sensor chip (source lines 109-116): the lower-cased label alone when the
grouping key is exactly `"temp1"` and the lowered label contains `"temp1"`,
otherwise `lower(key with spaces replaced by underscores) ++ "_" ++
lower(label)`; in both cases `temp<digits>_` is then rewritten to
`temp_`. -/
def sensorFieldKey (key label : String) : String :=
  let lbl := lowerStr label
  let raw :=
    if key = "temp1" ∧ containsSub lbl.data ("temp1".data) then lbl
    else underscoreSpaces (lowerStr key) ++ "_" ++ lbl
  String.mk (stripTemp raw.data)
/-- The inner loop over one grouping's `(label, value)` pairs
(`for field, field_value in value.items()`), accumulating into the chip's
field dict. -/
def chipFieldsStep (acc : List (String × PyVal)) (key : String)
    (inner : List (String × PyVal)) : List (String × PyVal) :=
  inner.foldl (fun a q => insertKV a (sensorFieldKey key q.1) q.2) acc
/-- The loop over one chip's grouping keys (`for key, value in
details.items()`): `"Adapter"` is skipped, a non-dict grouping value makes
`value.items()` raise (hence `Option.none`). -/
def chipFields : List (String × PyVal) → List (String × PyVal) →
    Option (List (String × PyVal))
  | acc, [] => some acc
  | acc, (key, v) :: rest =>
    if key = "Adapter" then chipFields acc rest
    else
      match v with
      | PyVal.dict inner => chipFields (chipFieldsStep acc key inner) rest
      | _ => Option.none
/-- The loop over the chips of the sensors dict: each chip must be a dict
with an `"Adapter"` entry (otherwise `details["Adapter"]` raises). -/
def sensorsChips (host : String) : List (String × PyVal) → Option (List Measurement)
  | [] => some []
  | (sensor, details) :: rest =>
    match details with
    | PyVal.dict dkvs =>
      match lookupKV dkvs "Adapter" with
      | some adapter =>
        match chipFields [] dkvs with
        | some fs =>
          match sensorsChips host rest with
          | some ms =>
            some ({ measurement := "sensors." ++ beforeHyphen sensor,
                    tags := [("host", PyVal.str host), ("adapter", adapter)],
                    fields := fs } :: ms)
          | Option.none => Option.none
        | Option.none => Option.none
      | Option.none => Option.none
    | _ => Option.none
/-- `parse_sensors_data(host, sensors_data)` (source lines 85-127).
A non-dict argument makes `sensors_data.items()` raise. -/
def parse_sensors_data (host : String) (sensors_data : PyVal) :
    Option (List Measurement) :=
  match sensors_data with
  | PyVal.dict chips => sensorsChips host chips
  | _ => Option.none
/-- `json.loads` of the sensors tool's stdout with `JSONDecodeError` caught:
`get_sensors_data` (source lines 64-82) returns `{}` on malformed output. -/
def get_sensors_data (raw : Option PyVal) : PyVal :=
  raw.getD (PyVal.dict [])
/-- `json.loads` of the smartctl stdout with `JSONDecodeError` caught:
`get_smartctl_data` (source lines 155-176) returns `{}` on malformed
output. -/
def get_smartctl_data (raw : Option PyVal) : PyVal :=
  raw.getD (PyVal.dict [])
/-- The explosion of a list-valued NVMe attribute
(`for i, item in enumerate(value): stats[f"{key}_{i + 1}"] = item`),
starting at index `i`. -/
def nvmeExplode (acc : List (String × PyVal)) (key : String) (i : Nat) :
    List PyVal → List (String × PyVal)
  | [] => acc
  | x :: xs => nvmeExplode (insertKV acc (key ++ "_" ++ Nat.repr (i + 1)) x) key (i + 1) xs
/-- One iteration of the NVMe stats loop (source lines 212-217): a list
value is exploded one field per element, any other value passes through
under the attribute name. -/
def nvmeInsert (acc : List (String × PyVal)) (key : String) : PyVal → List (String × PyVal)
  | PyVal.list xs => nvmeExplode acc key 0 xs
  | v => insertKV acc key v
/-- The NVMe stats loop over the health-log entries. -/
def nvmeStats (acc : List (String × PyVal)) :
    List (String × PyVal) → List (String × PyVal)
  | [] => acc
  | p :: rest => nvmeStats (nvmeInsert acc p.1 p.2) rest
/-- `parse_nvme_smartctl_data(host, disk, data)` (source lines 196-222).
`data.get(...)` requires a dict argument; the `.items()` loop requires the
health log itself to be a dict (default `{}` when the key is absent). -/
def parse_nvme_smartctl_data (host disk : String) (data : PyVal) : Option Measurement :=
  match data with
  | PyVal.dict kvs =>
    match (lookupKV kvs "nvme_smart_health_information_log").getD (PyVal.dict []) with
    | PyVal.dict log =>
      some { measurement := "smartctl." ++ disk,
             tags := [("host", PyVal.str host)],
             fields := nvmeStats [] log }
    | _ => Option.none
  | _ => Option.none
/-- `re.search(r"(\d+)", s)`: the first maximal run of decimal digits. -/
def firstDigitRun : List Char → Option (List Char)
  | [] => Option.none
  | c :: cs =>
    if c.isDigit then some (c :: cs.takeWhile Char.isDigit)
    else firstDigitRun cs
/-- The numeric value of a digit string (`float(match.group(1))`, exact). -/
def digitsToNat (ds : List Char) : Nat :=
  ds.foldl (fun a c => a * 10 + (c.toNat - 48)) 0
/-- The field value chosen for one SATA attribute record (source lines
252-259): id 194 with a digit run in the raw display string gives the float
of the first run; otherwise id 202 gives the normalized value and every
other id the raw numeric value.  The id-194 path evaluates `re.search` on
the raw display string, which raises on a non-string. -/
def sataAttrVal (idv rawv rawsv normv : PyVal) : Option PyVal :=
  if pyEqNat idv 194 then
    match rawsv with
    | PyVal.str s =>
      match firstDigitRun s.data with
      | some ds => some (PyVal.float (PyRat.ofInt (digitsToNat ds : Int)))
      | Option.none => some (if pyEqNat idv 202 then normv else rawv)
    | _ => Option.none
  else some (if pyEqNat idv 202 then normv else rawv)
/-- Processing of one SATA attribute record (source lines 247-259): the
`id`, `name`, `raw.value`, `raw.string` and `value` lookups all happen
before the id dispatch, and any missing key or non-dict access raises. -/
def sataAttr (acc : List (String × PyVal)) (attr : PyVal) :
    Option (List (String × PyVal)) :=
  match attr with
  | PyVal.dict akvs =>
    match lookupKV akvs "id", lookupKV akvs "name",
          lookupKV akvs "raw", lookupKV akvs "value" with
    | some idv, some (PyVal.str nm), some (PyVal.dict rkvs), some normv =>
      match lookupKV rkvs "value", lookupKV rkvs "string" with
      | some rawv, some rawsv =>
        match sataAttrVal idv rawv rawsv normv with
        | some v => some (insertKV acc (underscoreHyphens (lowerStr nm)) v)
        | Option.none => Option.none
      | _, _ => Option.none
    | _, _, _, _ => Option.none
  | _ => Option.none
/-- The loop over the SATA attribute table. -/
def sataTable (acc : List (String × PyVal)) : List PyVal →
    Option (List (String × PyVal))
  | [] => some acc
  | a :: rest =>
    match sataAttr acc a with
    | some acc2 => sataTable acc2 rest
    | Option.none => Option.none
/-- `parse_sata_smartctl_data(host, disk, data)` (source lines 230-264):
`data.get("ata_smart_attributes", {}).get("table", [])`, then the loop
over the (iterable) table. -/
def parse_sata_smartctl_data (host disk : String) (data : PyVal) : Option Measurement :=
  match data with
  | PyVal.dict kvs =>
    match (lookupKV kvs "ata_smart_attributes").getD (PyVal.dict []) with
    | PyVal.dict akvs =>
      match pyIter ((lookupKV akvs "table").getD (PyVal.list [])) with
      | some items =>
        match sataTable [] items with
        | some stats =>
          some { measurement := "smartctl." ++ disk,
                 tags := [("host", PyVal.str host)],
                 fields := stats }
        | Option.none => Option.none
      | Option.none => Option.none
    | _ => Option.none
  | _ => Option.none
/-- `parse_smartctl_data(host, disk, data)` (source lines 179-193):
dispatch on the `nvme` name prefix. -/
def parse_smartctl_data (host disk : String) (data : PyVal) : Option Measurement :=
  if strStartsWith disk "nvme" then parse_nvme_smartctl_data host disk data
  else parse_sata_smartctl_data host disk data
/-- The summation loop of `parse_vm_disk_data` (source lines 313-315):
`total_used += fs["used-bytes"]` for every record with `name == "sda1"`
and `mountpoint == "/"` (short-circuit: `mountpoint` is only read when the
name matches, `used-bytes` only when both match). -/
def sumUsed : List PyVal → PyRat → Option PyRat
  | [], acc => some acc
  | fs :: rest, acc =>
    match fs with
    | PyVal.dict fkvs =>
      match lookupKV fkvs "name" with
      | some nm =>
        if pyEqStr nm "sda1" then
          match lookupKV fkvs "mountpoint" with
          | some mp =>
            if pyEqStr mp "/" then
              match lookupKV fkvs "used-bytes" with
              | some u =>
                match pyToPyRat u with
                | some q => sumUsed rest (acc + q)
                | Option.none => Option.none
              | Option.none => Option.none
            else sumUsed rest acc
          | Option.none => Option.none
        else sumUsed rest acc
      | Option.none => Option.none
    | _ => Option.none
/-- `parse_vm_disk_data(host, vm_id, vm_name, data)` (source lines
296-326): `json.loads(data)` is *not* guarded, so malformed agent output
(`data = Option.none`) raises out of the normalizer.  The measurement is
produced whenever the summation loop completes, even over an empty
filesystem list. -/
def parse_vm_disk_data (host vm_id vm_name : String) (data : Option PyVal) :
    Option Measurement :=
  match data with
  | Option.none => Option.none
  | some fsinfo =>
    match pyIter fsinfo with
    | some items =>
      match sumUsed items 0 with
      | some total =>
        some { measurement := "system",
               tags := [("host", PyVal.str vm_name), ("nodename", PyVal.str host),
                        ("object", PyVal.str "qemu"), ("vmid", PyVal.str vm_id)],
               fields := [("disk", PyVal.float total)] }
      | Option.none => Option.none
    | Option.none => Option.none
/-- The NVMe namespace-suffix trim of the orchestrator (source lines
424-426): for a disk whose name starts with `nvme`, cut at the *last*
occurrence of the letter `n` (`disk[: disk.rfind("n")]`; `rfind` returning
`-1` would slice off the final character, unreachable here since an `nvme`
prefix always contains an `n`). -/
def lastIndexOfN : List Char → Nat → Option Nat
  | [], _ => Option.none
  | c :: cs, i =>
    match lastIndexOfN cs (i + 1) with
    | some j => some j
    | Option.none => if c = 'n' then some i else Option.none
/-- The per-disk name actually used by the orchestrator. -/
def trimDiskName (disk : String) : String :=
  if strStartsWith disk "nvme" then
    match lastIndexOfN disk.data 0 with
    | some j => String.mk (disk.data.take j)
    | Option.none => String.mk (disk.data.take (disk.data.length - 1))
  else disk
/-- The orchestrator's SMART loop (source lines 422-429): each enumerated
disk is trimmed, and both the smartctl invocation and the parser receive
the trimmed name. -/
def disksLoop (host : String) (smart : String → Option PyVal) :
    List String → Option (List Measurement)
  | [] => some []
  | d :: rest =>
    match parse_smartctl_data host (trimDiskName d)
            (get_smartctl_data (smart (trimDiskName d))) with
    | some m =>
      match disksLoop host smart rest with
      | some ms => some (m :: ms)
      | Option.none => Option.none
    | Option.none => Option.none
/-- The orchestrator's VM loop (source lines 432-436). -/
def vmsLoop (host : String) (vmData : String → Option PyVal) :
    List (String × String) → Option (List Measurement)
  | [] => some []
  | (vm_id, vm_name) :: rest =>
    match parse_vm_disk_data host vm_id vm_name (vmData vm_id) with
    | some m =>
      match vmsLoop host vmData rest with
      | some ms => some (m :: ms)
      | Option.none => Option.none
    | Option.none => Option.none
/-- `collect_measurements(host, vm_disk=...)` (source lines 407-438), with
the external collaborators made explicit: `sensors_raw` is the parse
outcome of the sensors stdout, `disks` the enumerated disk names, `smart`
the per-disk smartctl parse outcome (keyed by the name the orchestrator
passes, i.e. the trimmed one), `vms` the running (id, name) pairs and
`vmData` the per-VM agent parse outcome.  An uncaught exception anywhere
aborts the whole batch (`Option.none`). -/
def collect_measurements (host : String) (sensors_raw : Option PyVal)
    (disks : List String) (smart : String → Option PyVal)
    (vms : List (String × String)) (vmData : String → Option PyVal)
    (vm_disk : Bool) : Option (List Measurement) :=
  match parse_sensors_data host (get_sensors_data sensors_raw) with
  | some sens =>
    match disksLoop host smart disks with
    | some smartMs =>
      match (if vm_disk then vmsLoop host vmData vms else some []) with
      | some vmMs => some (sens ++ smartMs ++ vmMs)
      | Option.none => Option.none
    | Option.none => Option.none
  | Option.none => Option.none
/-- The keys of a field dict, in order. -/
def keysOf (l : List (String × PyVal)) : List String := l.map Prod.fst
/-- The field list the NVMe list-explosion produces, starting at index `i`:
one entry per element, keyed `<attribute>_<1-based index>`. -/
def explodeFields (key : String) : Nat → List PyVal → List (String × PyVal)
  | _, [] => []
  | i, x :: xs => (key ++ "_" ++ Nat.repr (i + 1), x) :: explodeFields key (i + 1) xs
/-- One sensor grouping entry has numeric reading values (the `"Adapter"`
entry and non-dict groupings are unconstrained: the former is skipped, the
latter make the parse raise). -/
def groupNumB (q : String × PyVal) : Bool :=
  if q.1 = "Adapter" then true
  else
    match q.2 with
    | PyVal.dict inner => inner.all (fun r => PyVal.isNum r.2)
    | _ => true
/-- One chip of the sensors input has numeric reading values. -/
def chipNumB (p : String × PyVal) : Bool :=
  match p.2 with
  | PyVal.dict dkvs => dkvs.all groupNumB
  | _ => true
/-- The sensors input has numeric reading values throughout. -/
def sensorsNumericB (sd : PyVal) : Bool :=
  match sd with
  | PyVal.dict chips => chips.all chipNumB
  | _ => true
/-- One NVMe health-log entry has numeric content (scalar numeric, or a
list of numerics). -/
def nvmeEntryNumB (p : String × PyVal) : Bool :=
  match p.2 with
  | PyVal.list xs => xs.all PyVal.isNum
  | v => PyVal.isNum v
/-- The NVMe SMART input has numeric health-log values. -/
def nvmeNumericB (data : PyVal) : Bool :=
  match data with
  | PyVal.dict kvs =>
    match (lookupKV kvs "nvme_smart_health_information_log").getD (PyVal.dict []) with
    | PyVal.dict log => log.all nvmeEntryNumB
    | _ => true
  | _ => true
/-- One SATA attribute record has numeric normalized and raw values (where
present; absent keys make the parse raise, so they are unconstrained). -/
def sataAttrNumB (a : PyVal) : Bool :=
  match a with
  | PyVal.dict akvs =>
    (match lookupKV akvs "value" with
     | some v => PyVal.isNum v
     | Option.none => true)
    && (match lookupKV akvs "raw" with
        | some (PyVal.dict rkvs) =>
          match lookupKV rkvs "value" with
          | some v => PyVal.isNum v
          | Option.none => true
        | _ => true)
  | _ => true
/-- The SATA SMART input has numeric normalized and raw attribute values. -/
def sataNumericB (data : PyVal) : Bool :=
  match data with
  | PyVal.dict kvs =>
    match (lookupKV kvs "ata_smart_attributes").getD (PyVal.dict []) with
    | PyVal.dict akvs =>
      match pyIter ((lookupKV akvs "table").getD (PyVal.list [])) with
      | some items => items.all sataAttrNumB
      | Option.none => true
    | _ => true
  | _ => true
/-- The numeric input condition for the dispatching SMART extractor. -/
def smartNumericB (disk : String) (data : PyVal) : Bool :=
  if strStartsWith disk "nvme" then nvmeNumericB data else sataNumericB data

theorem insertKV_of_not_mem (l : List (String × PyVal)) (k : String) (v : PyVal)
    (h : k ∉ keysOf l) : insertKV l k v = l ++ [(k, v)] := by
  induction l with
  | nil => rfl
  | cons p rest ih =>
    simp only [keysOf, List.map_cons, List.mem_cons, not_or] at h
    have hne : ¬ p.1 = k := fun he => h.1 he.symm
    simp only [insertKV, if_neg hne, List.cons_append, List.cons.injEq, true_and]
    exact ih h.2
theorem foldl_insert_fresh {α : Type} (kf : α → String) (vf : α → PyVal)
    (items : List α) :
    ∀ acc : List (String × PyVal),
      (∀ x ∈ items, kf x ∉ keysOf acc) →
      (items.map kf).Nodup →
      items.foldl (fun a x => insertKV a (kf x) (vf x)) acc
        = acc ++ items.map (fun x => (kf x, vf x)) := by
  induction items with
  | nil => intro acc _ _; simp
  | cons x rest ih =>
    intro acc h1 h2
    simp only [List.map_cons, List.nodup_cons] at h2
    have hx : kf x ∉ keysOf acc := h1 x (List.mem_cons_self x rest)
    simp only [List.foldl_cons, insertKV_of_not_mem acc (kf x) (vf x) hx]
    rw [ih (acc ++ [(kf x, vf x)]) ?fresh h2.2]
    · simp
    case fresh =>
      intro y hy
      have hkeys : keysOf (acc ++ [(kf x, vf x)]) = keysOf acc ++ [kf x] := by
        simp [keysOf]
      rw [hkeys]
      simp only [List.mem_append, List.mem_singleton, not_or]
      refine ⟨h1 y (List.mem_cons_of_mem x hy), ?_⟩
      intro he
      exact h2.1 (he ▸ List.mem_map_of_mem kf hy)
theorem insertKV_isNum (l : List (String × PyVal)) (k : String) (v : PyVal)
    (hl : ∀ p ∈ l, PyVal.isNum p.2 = true) (hv : PyVal.isNum v = true) :
    ∀ p ∈ insertKV l k v, PyVal.isNum p.2 = true := by
  induction l with
  | nil =>
    intro p hp
    simp only [insertKV, List.mem_singleton] at hp
    simpa [hp]
  | cons q rest ih =>
    intro p hp
    simp only [insertKV] at hp
    by_cases hqk : q.1 = k
    · rw [if_pos hqk] at hp
      rcases List.mem_cons.mp hp with h | h
      · simpa [h]
      · exact hl p (List.mem_cons_of_mem q h)
    · rw [if_neg hqk] at hp
      rcases List.mem_cons.mp hp with h | h
      · exact hl p (h ▸ List.mem_cons_self q rest)
      · exact ih (fun r hr => hl r (List.mem_cons_of_mem q hr)) p h
theorem foldl_insert_isNum {α : Type} (kf : α → String) (vf : α → PyVal)
    (items : List α) :
    ∀ acc : List (String × PyVal),
      (∀ p ∈ acc, PyVal.isNum p.2 = true) →
      (∀ x ∈ items, PyVal.isNum (vf x) = true) →
      ∀ p ∈ items.foldl (fun a x => insertKV a (kf x) (vf x)) acc,
        PyVal.isNum p.2 = true := by
  induction items with
  | nil => intro acc hacc _; simp only [List.foldl_nil]; exact hacc
  | cons x rest ih =>
    intro acc hacc hit
    simp only [List.foldl_cons]
    exact ih (insertKV acc (kf x) (vf x))
      (insertKV_isNum acc (kf x) (vf x) hacc (hit x (List.mem_cons_self x rest)))
      (fun y hy => hit y (List.mem_cons_of_mem x hy))
theorem nvmeExplode_eq_append (key : String) (xs : List PyVal) :
    ∀ (i : Nat) (acc : List (String × PyVal)),
      (∀ p ∈ explodeFields key i xs, p.1 ∉ keysOf acc) →
      (keysOf (explodeFields key i xs)).Nodup →
      nvmeExplode acc key i xs = acc ++ explodeFields key i xs := by
  induction xs with
  | nil => intro i acc _ _; simp [nvmeExplode, explodeFields]
  | cons x rest ih =>
    intro i acc h1 h2
    simp only [explodeFields, keysOf, List.map_cons, List.nodup_cons] at h2
    have hx : (key ++ "_" ++ Nat.repr (i + 1)) ∉ keysOf acc :=
      h1 _ (List.mem_cons_self _ _)
    simp only [nvmeExplode, insertKV_of_not_mem acc _ x hx]
    rw [ih (i + 1) (acc ++ [(key ++ "_" ++ Nat.repr (i + 1), x)]) ?fresh h2.2]
    · simp [explodeFields]
    case fresh =>
      intro p hp
      have hkeys : keysOf (acc ++ [(key ++ "_" ++ Nat.repr (i + 1), x)])
          = keysOf acc ++ [key ++ "_" ++ Nat.repr (i + 1)] := by simp [keysOf]
      rw [hkeys]
      simp only [List.mem_append, List.mem_singleton, not_or]
      refine ⟨h1 p (List.mem_cons_of_mem _ hp), ?_⟩
      intro he
      exact h2.1 (he ▸ List.mem_map_of_mem Prod.fst hp)
theorem nvmeExplode_isNum (key : String) (xs : List PyVal) :
    ∀ (i : Nat) (acc : List (String × PyVal)),
      (∀ p ∈ acc, PyVal.isNum p.2 = true) →
      (∀ x ∈ xs, PyVal.isNum x = true) →
      ∀ p ∈ nvmeExplode acc key i xs, PyVal.isNum p.2 = true := by
  induction xs with
  | nil => intro i acc hacc _; simp only [nvmeExplode]; exact hacc
  | cons x rest ih =>
    intro i acc hacc hxs
    simp only [nvmeExplode]
    exact ih (i + 1) _
      (insertKV_isNum acc _ x hacc (hxs x (List.mem_cons_self x rest)))
      (fun y hy => hxs y (List.mem_cons_of_mem x hy))
theorem parse_nvme_measurement (host disk : String) (data : PyVal)
    (m : Measurement) (h : parse_nvme_smartctl_data host disk data = some m) :
    m.measurement = "smartctl." ++ disk := by
  unfold parse_nvme_smartctl_data at h
  split at h
  · split at h
    · cases h; rfl
    all_goals exact Option.noConfusion h
  all_goals exact Option.noConfusion h
theorem parse_sata_measurement (host disk : String) (data : PyVal)
    (m : Measurement) (h : parse_sata_smartctl_data host disk data = some m) :
    m.measurement = "smartctl." ++ disk := by
  unfold parse_sata_smartctl_data at h
  split at h
  · split at h
    · split at h
      · split at h
        · cases h; rfl
        all_goals exact Option.noConfusion h
      all_goals exact Option.noConfusion h
    all_goals exact Option.noConfusion h
  all_goals exact Option.noConfusion h
theorem parse_smartctl_measurement (host disk : String) (data : PyVal)
    (m : Measurement) (h : parse_smartctl_data host disk data = some m) :
    m.measurement = "smartctl." ++ disk := by
  unfold parse_smartctl_data at h
  split at h
  · exact parse_nvme_measurement host disk data m h
  · exact parse_sata_measurement host disk data m h
theorem chipFieldsStep_isNum (key : String) (inner acc : List (String × PyVal))
    (hacc : ∀ p ∈ acc, PyVal.isNum p.2 = true)
    (hin : ∀ r ∈ inner, PyVal.isNum r.2 = true) :
    ∀ p ∈ chipFieldsStep acc key inner, PyVal.isNum p.2 = true :=
  foldl_insert_isNum (fun q : String × PyVal => sensorFieldKey key q.1)
    (fun q : String × PyVal => q.2) inner acc hacc hin
theorem chipFields_isNum : ∀ (dkvs acc res : List (String × PyVal)),
    chipFields acc dkvs = some res →
    (∀ p ∈ acc, PyVal.isNum p.2 = true) →
    dkvs.all groupNumB = true →
    ∀ p ∈ res, PyVal.isNum p.2 = true := by
  intro dkvs
  induction dkvs with
  | nil =>
    intro acc res h hacc _
    simp only [chipFields] at h
    cases h
    exact hacc
  | cons q rest ih =>
    obtain ⟨key, v⟩ := q
    intro acc res h hacc hall
    simp only [List.all_cons, Bool.and_eq_true] at hall
    simp only [chipFields] at h
    by_cases hk : key = "Adapter"
    · rw [if_pos hk] at h
      exact ih acc res h hacc hall.2
    · rw [if_neg hk] at h
      cases v <;> try exact Option.noConfusion h
      rename_i inner
      have hin : ∀ r ∈ inner, PyVal.isNum r.2 = true := by
        have hg := hall.1
        simp only [groupNumB, if_neg hk, List.all_eq_true] at hg
        exact hg
      exact ih _ res h (chipFieldsStep_isNum key inner acc hacc hin) hall.2
theorem sensorsChips_isNum (host : String) : ∀ (chips : List (String × PyVal))
    (ms : List Measurement),
    sensorsChips host chips = some ms →
    chips.all chipNumB = true →
    ∀ m ∈ ms, ∀ p ∈ m.fields, PyVal.isNum p.2 = true := by
  intro chips
  induction chips with
  | nil =>
    intro ms h _
    simp only [sensorsChips] at h
    cases h
    intro m hm
    exact absurd hm (List.not_mem_nil m)
  | cons q rest ih =>
    obtain ⟨sensor, details⟩ := q
    intro ms h hall
    simp only [List.all_cons, Bool.and_eq_true] at hall
    cases details <;> simp only [sensorsChips] at h <;>
      try exact Option.noConfusion h
    rename_i dkvs
    split at h <;> try exact Option.noConfusion h
    rename_i adapter hA
    split at h <;> try exact Option.noConfusion h
    rename_i fs hF
    split at h <;> try exact Option.noConfusion h
    rename_i ms0 hR
    cases h
    intro m hm
    rcases List.mem_cons.mp hm with hm0 | hm0
    · subst hm0
      have hd : dkvs.all groupNumB = true := by
        have hc := hall.1
        simpa only [chipNumB] using hc
      exact chipFields_isNum dkvs [] fs hF
        (by intro p hp; exact absurd hp (List.not_mem_nil p)) hd
    · exact ih ms0 hR hall.2 m hm0
theorem parse_sensors_isNum (host : String) (sd : PyVal)
    (ms : List Measurement)
    (h : parse_sensors_data host sd = some ms)
    (hn : sensorsNumericB sd = true) :
    ∀ m ∈ ms, ∀ p ∈ m.fields, PyVal.isNum p.2 = true := by
  unfold parse_sensors_data at h
  cases sd <;> try exact Option.noConfusion h
  rename_i chips
  simp only [sensorsNumericB] at hn
  exact sensorsChips_isNum host chips ms h hn
theorem nvmeInsert_isNum (acc : List (String × PyVal)) (key : String) (v : PyVal)
    (hacc : ∀ p ∈ acc, PyVal.isNum p.2 = true)
    (hv : nvmeEntryNumB (key, v) = true) :
    ∀ p ∈ nvmeInsert acc key v, PyVal.isNum p.2 = true := by
  cases v <;> simp only [nvmeEntryNumB, nvmeInsert] at hv ⊢ <;>
    first
      | exact nvmeExplode_isNum key _ 0 acc hacc (List.all_eq_true.mp hv)
      | exact insertKV_isNum acc key _ hacc (by simpa using hv)
theorem nvmeStats_isNum : ∀ (log acc : List (String × PyVal)),
    (∀ p ∈ acc, PyVal.isNum p.2 = true) →
    log.all nvmeEntryNumB = true →
    ∀ p ∈ nvmeStats acc log, PyVal.isNum p.2 = true := by
  intro log
  induction log with
  | nil => intro acc hacc _; simp only [nvmeStats]; exact hacc
  | cons q rest ih =>
    intro acc hacc hall
    simp only [List.all_cons, Bool.and_eq_true] at hall
    simp only [nvmeStats]
    exact ih _ (nvmeInsert_isNum acc q.1 q.2 hacc hall.1) hall.2
theorem parse_nvme_isNum (host disk : String) (data : PyVal) (m : Measurement)
    (h : parse_nvme_smartctl_data host disk data = some m)
    (hn : nvmeNumericB data = true) :
    ∀ p ∈ m.fields, PyVal.isNum p.2 = true := by
  cases data <;> simp only [parse_nvme_smartctl_data] at h <;>
    try exact Option.noConfusion h
  rename_i kvs
  simp only [nvmeNumericB] at hn
  split at h <;> try exact Option.noConfusion h
  rename_i log heq
  rw [heq] at hn
  simp only [] at hn
  cases h
  exact nvmeStats_isNum log [] (by intro p hp; exact absurd hp (List.not_mem_nil p)) hn
theorem sataAttrVal_isNum (idv rawv rawsv normv v : PyVal)
    (h : sataAttrVal idv rawv rawsv normv = some v)
    (hraw : PyVal.isNum rawv = true) (hnorm : PyVal.isNum normv = true) :
    PyVal.isNum v = true := by
  unfold sataAttrVal at h
  split at h
  · split at h <;> try exact Option.noConfusion h
    rename_i s
    split at h
    · cases h; rfl
    · cases h
      split <;> assumption
  · cases h
    split <;> assumption
theorem sataAttr_isNum (acc : List (String × PyVal)) (a : PyVal)
    (acc2 : List (String × PyVal)) (h : sataAttr acc a = some acc2)
    (hacc : ∀ p ∈ acc, PyVal.isNum p.2 = true)
    (ha : sataAttrNumB a = true) :
    ∀ p ∈ acc2, PyVal.isNum p.2 = true := by
  cases a <;> simp only [sataAttr] at h <;> try exact Option.noConfusion h
  rename_i akvs
  simp only [sataAttrNumB, Bool.and_eq_true] at ha
  obtain ⟨hav, har⟩ := ha
  split at h <;> try exact Option.noConfusion h
  rename_i idv nm rkvs normv hid hnm hraw hval
  rw [hval] at hav
  rw [hraw] at har
  simp only [] at hav har
  split at h <;> try exact Option.noConfusion h
  rename_i rawv rawsv hrval hrstr
  rw [hrval] at har
  simp only [] at har
  split at h <;> try exact Option.noConfusion h
  rename_i v hv
  cases h
  exact insertKV_isNum acc _ v hacc
    (sataAttrVal_isNum idv rawv rawsv normv v hv har hav)
theorem sataTable_isNum : ∀ (items : List PyVal) (acc acc2 : List (String × PyVal)),
    sataTable acc items = some acc2 →
    (∀ p ∈ acc, PyVal.isNum p.2 = true) →
    items.all sataAttrNumB = true →
    ∀ p ∈ acc2, PyVal.isNum p.2 = true := by
  intro items
  induction items with
  | nil =>
    intro acc acc2 h hacc _
    simp only [sataTable] at h
    cases h
    exact hacc
  | cons a rest ih =>
    intro acc acc2 h hacc hall
    simp only [List.all_cons, Bool.and_eq_true] at hall
    simp only [sataTable] at h
    split at h <;> try exact Option.noConfusion h
    rename_i acc1 ha
    exact ih acc1 acc2 h (sataAttr_isNum acc a acc1 ha hacc hall.1) hall.2
theorem parse_sata_isNum (host disk : String) (data : PyVal) (m : Measurement)
    (h : parse_sata_smartctl_data host disk data = some m)
    (hn : sataNumericB data = true) :
    ∀ p ∈ m.fields, PyVal.isNum p.2 = true := by
  cases data <;> simp only [parse_sata_smartctl_data] at h <;>
    try exact Option.noConfusion h
  rename_i kvs
  simp only [sataNumericB] at hn
  split at h <;> try exact Option.noConfusion h
  rename_i akvs heq
  rw [heq] at hn
  simp only [] at hn
  split at h <;> try exact Option.noConfusion h
  rename_i items hit
  rw [hit] at hn
  simp only [] at hn
  split at h <;> try exact Option.noConfusion h
  rename_i stats hst
  cases h
  exact sataTable_isNum items [] stats hst
    (by intro p hp; exact absurd hp (List.not_mem_nil p)) hn
theorem parse_smartctl_isNum (host disk : String) (data : PyVal) (m : Measurement)
    (h : parse_smartctl_data host disk data = some m)
    (hn : smartNumericB disk data = true) :
    ∀ p ∈ m.fields, PyVal.isNum p.2 = true := by
  unfold parse_smartctl_data at h
  unfold smartNumericB at hn
  split at h
  · rw [if_pos (by assumption)] at hn
    exact parse_nvme_isNum host disk data m h hn
  · rw [if_neg (by assumption)] at hn
    exact parse_sata_isNum host disk data m h hn
theorem parse_vm_fields (host vm_id vm_name : String) (dat : Option PyVal)
    (m : Measurement) (h : parse_vm_disk_data host vm_id vm_name dat = some m) :
    ∃ total : PyRat, m.fields = [("disk", PyVal.float total)] := by
  unfold parse_vm_disk_data at h
  split at h <;> try exact Option.noConfusion h
  rename_i fsinfo
  split at h <;> try exact Option.noConfusion h
  rename_i items hit
  split at h <;> try exact Option.noConfusion h
  rename_i total ht
  cases h
  exact ⟨total, rfl⟩

/-! ### Claim theorems -/

/-- C1: the claim states that a VM whose filesystem-info list is empty
yields no "system" measurement tagged with that VM's name and vmid.
Evaluating the orchestrator at exactly that input shows the code emits the
measurement anyway, tagged with the VM's name and id, carrying
`disk = 0.0`. -/
theorem c1_empty_fsinfo_still_emits :
    collect_measurements "node1" (some (PyVal.dict [])) []
      (fun _ => Option.none) [("100", "vm1")] (fun _ => some (PyVal.list [])) true
    = some [{ measurement := "system",
              tags := [("host", PyVal.str "vm1"), ("nodename", PyVal.str "node1"),
                       ("object", PyVal.str "qemu"), ("vmid", PyVal.str "100")],
              fields := [("disk", PyVal.float 0)] }] := rfl

/-- C2 counterexample: for a chip whose only grouping key besides "Adapter"
is exactly "temp1" containing the label "temp1_input", the produced field
key is "temp_input", not "temp1_input": the temp-index substitution of
source line 116 applies in this branch too, so the claimed key is never
produced. -/
theorem c2_cex_key_is_temp_input :
    parse_sensors_data "h"
      (PyVal.dict [("acpitz-acpi-0", PyVal.dict
        [("Adapter", PyVal.str "ACPI interface"),
         ("temp1", PyVal.dict [("temp1_input", PyVal.float 46)])])])
    = some [{ measurement := "sensors.acpitz",
              tags := [("host", PyVal.str "h"),
                       ("adapter", PyVal.str "ACPI interface")],
              fields := [("temp_input", PyVal.float 46)] }]
    ∧ ("temp_input" : String) ≠ "temp1_input" :=
  ⟨rfl, by decide⟩

/-- C2 (amended): for a chip whose only grouping key besides "Adapter" is
exactly "temp1" containing the label "temp1_input", the field key is
"temp_input" — the lower-cased label with no prefix duplication, and with
the digit index after "temp" stripped. -/
theorem c2_amended_temp1_key (host chip adapter : String) (v : PyVal) :
    parse_sensors_data host
      (PyVal.dict [(chip, PyVal.dict
        [("Adapter", PyVal.str adapter),
         ("temp1", PyVal.dict [("temp1_input", v)])])])
    = some [{ measurement := "sensors." ++ beforeHyphen chip,
              tags := [("host", PyVal.str host), ("adapter", PyVal.str adapter)],
              fields := [("temp_input", v)] }] := rfl

/-- C3: malformed sensor JSON and malformed per-disk SMART JSON are
recovered locally as empty dicts, but malformed per-VM filesystem JSON
raises out of `parse_vm_disk_data` (`json.loads` is unguarded there) and
aborts the whole collection, so the claim that no exception reaches the
orchestrator fails for the VM source. -/
theorem c3_vm_malformed_json_raises :
    get_sensors_data Option.none = PyVal.dict []
    ∧ get_smartctl_data Option.none = PyVal.dict []
    ∧ parse_vm_disk_data "h" "100" "vm1" Option.none = Option.none
    ∧ collect_measurements "h" (some (PyVal.dict [])) [] (fun _ => Option.none)
        [("100", "vm1")] (fun _ => Option.none) true = Option.none :=
  ⟨rfl, rfl, rfl, rfl⟩

/-- C5 counterexample: a SATA id-194 record whose raw display string
contains no decimal digit does not raise: the extractor falls back to the
raw numeric value (the final `else` branch, value 7 here) and the disk's
measurement is produced. -/
theorem c5_cex_no_digits_falls_back :
    parse_sata_smartctl_data "h" "sda"
      (PyVal.dict [("ata_smart_attributes", PyVal.dict [("table", PyVal.list
        [PyVal.dict
          [("id", PyVal.int 194), ("name", PyVal.str "Temperature_Celsius"),
           ("value", PyVal.int 59),
           ("raw", PyVal.dict [("value", PyVal.int 7),
                               ("string", PyVal.str "no digits here")])]])])])
    = some { measurement := "smartctl.sda", tags := [("host", PyVal.str "h")],
             fields := [("temperature_celsius", PyVal.int 7)] } := rfl

/-- C5 (amended): for every SATA table whose single record has id 194 and
a raw display string without any run of decimal digits, processing does not
raise: the record falls through to the default branch and the field gets
the raw numeric value. -/
theorem c5_amended_fallback_to_raw (host disk nm s : String) (rawv normv : PyVal)
    (hs : firstDigitRun s.data = Option.none) :
    parse_sata_smartctl_data host disk
      (PyVal.dict [("ata_smart_attributes", PyVal.dict [("table", PyVal.list
        [PyVal.dict
          [("id", PyVal.int 194), ("name", PyVal.str nm), ("value", normv),
           ("raw", PyVal.dict [("value", rawv), ("string", PyVal.str s)])]])])])
    = some { measurement := "smartctl." ++ disk,
             tags := [("host", PyVal.str host)],
             fields := [(underscoreHyphens (lowerStr nm), rawv)] } := by
  simp [parse_sata_smartctl_data, lookupKV, pyIter, sataTable, sataAttr,
    sataAttrVal, pyEqNat, insertKV, hs]

/-- C5 witness. -/
theorem c5_amended_witness :
    firstDigitRun ("drive ok" : String).data = Option.none
    ∧ parse_sata_smartctl_data "h" "sda"
        (PyVal.dict [("ata_smart_attributes", PyVal.dict [("table", PyVal.list
          [PyVal.dict
            [("id", PyVal.int 194), ("name", PyVal.str "Temperature_Celsius"),
             ("value", PyVal.int 59),
             ("raw", PyVal.dict [("value", PyVal.int 5),
                                 ("string", PyVal.str "drive ok")])]])])])
      = some { measurement := "smartctl." ++ "sda",
               tags := [("host", PyVal.str "h")],
               fields := [(underscoreHyphens (lowerStr "Temperature_Celsius"),
                           PyVal.int 5)] } :=
  ⟨rfl, c5_amended_fallback_to_raw "h" "sda" "Temperature_Celsius" "drive ok"
    (PyVal.int 5) (PyVal.int 59) rfl⟩

/-- C6: for every SATA table whose single record has id 194 and a raw
display string containing at least one run of decimal digits, the field
value is the float of the first run of digits in the string; in particular
the raw string "41 (Min/Max 24/44)" (with composite raw numeric value
188980133929) yields exactly 41.0. -/
theorem c6_sata_temp_first_digit_run :
    (∀ (host disk nm s : String) (rawv normv : PyVal) (ds : List Char),
      firstDigitRun s.data = some ds →
      parse_sata_smartctl_data host disk
        (PyVal.dict [("ata_smart_attributes", PyVal.dict [("table", PyVal.list
          [PyVal.dict
            [("id", PyVal.int 194), ("name", PyVal.str nm), ("value", normv),
             ("raw", PyVal.dict [("value", rawv), ("string", PyVal.str s)])]])])])
      = some { measurement := "smartctl." ++ disk,
               tags := [("host", PyVal.str host)],
               fields := [(underscoreHyphens (lowerStr nm),
                           PyVal.float (PyRat.ofInt (digitsToNat ds : Int)))] })
    ∧ parse_sata_smartctl_data "h" "sda"
        (PyVal.dict [("ata_smart_attributes", PyVal.dict [("table", PyVal.list
          [PyVal.dict
            [("id", PyVal.int 194), ("name", PyVal.str "Temperature_Celsius"),
             ("value", PyVal.int 59),
             ("raw", PyVal.dict [("value", PyVal.int 188980133929),
                                 ("string", PyVal.str "41 (Min/Max 24/44)")])]])])])
      = some { measurement := "smartctl.sda", tags := [("host", PyVal.str "h")],
               fields := [("temperature_celsius", PyVal.float 41)] } := by
  constructor
  · intro host disk nm s rawv normv ds hs
    simp [parse_sata_smartctl_data, lookupKV, pyIter, sataTable, sataAttr,
      sataAttrVal, pyEqNat, insertKV, hs]
  · rfl

/-- C6 witness. -/
theorem c6_witness :
    firstDigitRun ("41 (Min/Max 24/44)" : String).data = some ['4', '1']
    ∧ parse_sata_smartctl_data "h2" "sdb"
        (PyVal.dict [("ata_smart_attributes", PyVal.dict [("table", PyVal.list
          [PyVal.dict
            [("id", PyVal.int 194), ("name", PyVal.str "Temperature_Celsius"),
             ("value", PyVal.int 59),
             ("raw", PyVal.dict [("value", PyVal.int 188980133929),
                                 ("string", PyVal.str "41 (Min/Max 24/44)")])]])])])
      = some { measurement := "smartctl." ++ "sdb",
               tags := [("host", PyVal.str "h2")],
               fields := [(underscoreHyphens (lowerStr "Temperature_Celsius"),
                           PyVal.float (PyRat.ofInt (digitsToNat ['4', '1'] : Int)))] } :=
  ⟨rfl, c6_sata_temp_first_digit_run.1 "h2" "sdb" "Temperature_Celsius"
    "41 (Min/Max 24/44)" (PyVal.int 188980133929) (PyVal.int 59) ['4', '1'] rfl⟩

/-- For a grouping key other than `"temp1"`, the field key is always the
composed form (the `else` branch of source lines 111-114 followed by the
substitution of line 116). -/
theorem sensorFieldKey_of_ne (key label : String) (hk : key ≠ "temp1") :
    sensorFieldKey key label =
      String.mk (stripTemp
        (underscoreSpaces (lowerStr key) ++ "_" ++ lowerStr label).data) := by
  simp only [sensorFieldKey]
  rw [if_neg (fun hc => hk hc.1)]

/-- C7: for every grouping key other than "temp1" and "Adapter" and every
(label, value) pair inside it, the field key is
`lower(key with spaces replaced by underscores) ++ "_" ++ lower(label)`
with every `temp<digits>_` occurrence (digits directly after the literal
"temp") rewritten to `temp_`; concretely, grouping key "Core 0" with label
"temp2_input" yields "core_0_temp_input", the digit of the "core_0_"
prefix untouched. -/
theorem c7_sensor_field_key_general :
    (∀ (host chip adapter key : String) (inner : List (String × PyVal)),
      key ≠ "temp1" → key ≠ "Adapter" →
      (inner.map (fun q => sensorFieldKey key q.1)).Nodup →
      parse_sensors_data host
        (PyVal.dict [(chip, PyVal.dict [("Adapter", PyVal.str adapter),
                                        (key, PyVal.dict inner)])])
      = some [{ measurement := "sensors." ++ beforeHyphen chip,
                tags := [("host", PyVal.str host), ("adapter", PyVal.str adapter)],
                fields := inner.map (fun q =>
                  (String.mk (stripTemp
                    (underscoreSpaces (lowerStr key) ++ "_" ++ lowerStr q.1).data),
                   q.2)) }])
    ∧ parse_sensors_data "h"
        (PyVal.dict [("coretemp-isa-0000", PyVal.dict
          [("Adapter", PyVal.str "ISA adapter"),
           ("Core 0", PyVal.dict [("temp2_input", PyVal.float 37)])])])
      = some [{ measurement := "sensors.coretemp",
                tags := [("host", PyVal.str "h"),
                         ("adapter", PyVal.str "ISA adapter")],
                fields := [("core_0_temp_input", PyVal.float 37)] }] := by
  constructor
  · intro host chip adapter key inner hk1 hk2 hnd
    have hstep : chipFieldsStep [] key inner
        = inner.map (fun q => (sensorFieldKey key q.1, q.2)) := by
      have hf := foldl_insert_fresh (fun q : String × PyVal => sensorFieldKey key q.1)
        (fun q : String × PyVal => q.2) inner []
        (by intro x hx; simp [keysOf]) hnd
      simpa [chipFieldsStep] using hf
    have hmap : inner.map (fun q => (sensorFieldKey key q.1, q.2))
        = inner.map (fun q =>
            (String.mk (stripTemp
              (underscoreSpaces (lowerStr key) ++ "_" ++ lowerStr q.1).data),
             q.2)) :=
      List.map_congr_left (fun q _ => by rw [sensorFieldKey_of_ne key q.1 hk1])
    simp [parse_sensors_data, sensorsChips, lookupKV, chipFields, hk2, hstep, hmap]
  · rfl

/-- C7 witness. -/
theorem c7_witness :
    ("Core 0" : String) ≠ "temp1"
    ∧ ("Core 0" : String) ≠ "Adapter"
    ∧ ([(("temp2_input" : String), PyVal.float 37)].map
        (fun q => sensorFieldKey "Core 0" q.1)).Nodup
    ∧ parse_sensors_data "h"
        (PyVal.dict [("coretemp-isa-0000", PyVal.dict
          [("Adapter", PyVal.str "ISA adapter"),
           ("Core 0", PyVal.dict [("temp2_input", PyVal.float 37)])])])
      = some [{ measurement := "sensors." ++ beforeHyphen "coretemp-isa-0000",
                tags := [("host", PyVal.str "h"),
                         ("adapter", PyVal.str "ISA adapter")],
                fields := [(("temp2_input" : String), PyVal.float 37)].map (fun q =>
                  (String.mk (stripTemp
                    (underscoreSpaces (lowerStr "Core 0") ++ "_" ++ lowerStr q.1).data),
                   q.2)) }] :=
  ⟨by decide, by decide, by decide,
   c7_sensor_field_key_general.1 "h" "coretemp-isa-0000" "ISA adapter" "Core 0"
     [("temp2_input", PyVal.float 37)] (by decide) (by decide) (by decide)⟩

/-- C8: in the NVMe extractor, a list-valued health-log attribute is
exploded into one field per element, keyed `<attribute>_<i>` with `i` the
1-based element index (`explodeFields key 0` enumerates exactly these
pairs), a non-list attribute passes through under its unchanged name, and
concretely `temperature_sensors: [48, 61]` yields exactly the two fields
`temperature_sensors_1 = 48` and `temperature_sensors_2 = 61` next to a
passed-through scalar. -/
theorem c8_nvme_list_explosion :
    (∀ (host disk key : String) (xs : List PyVal),
      (keysOf (explodeFields key 0 xs)).Nodup →
      parse_nvme_smartctl_data host disk
        (PyVal.dict [("nvme_smart_health_information_log",
                      PyVal.dict [(key, PyVal.list xs)])])
      = some { measurement := "smartctl." ++ disk,
               tags := [("host", PyVal.str host)],
               fields := explodeFields key 0 xs })
    ∧ (∀ (host disk key : String) (v : PyVal), PyVal.isList v = false →
      parse_nvme_smartctl_data host disk
        (PyVal.dict [("nvme_smart_health_information_log",
                      PyVal.dict [(key, v)])])
      = some { measurement := "smartctl." ++ disk,
               tags := [("host", PyVal.str host)],
               fields := [(key, v)] })
    ∧ parse_nvme_smartctl_data "h" "nvme0"
        (PyVal.dict [("nvme_smart_health_information_log", PyVal.dict
          [("temperature", PyVal.int 48),
           ("temperature_sensors", PyVal.list [PyVal.int 48, PyVal.int 61])])])
      = some { measurement := "smartctl.nvme0", tags := [("host", PyVal.str "h")],
               fields := [("temperature", PyVal.int 48),
                          ("temperature_sensors_1", PyVal.int 48),
                          ("temperature_sensors_2", PyVal.int 61)] } := by
  refine ⟨?_, ?_, rfl⟩
  · intro host disk key xs hnd
    have hexp := nvmeExplode_eq_append key xs 0 []
      (by intro p hp; simp [keysOf]) hnd
    simp [parse_nvme_smartctl_data, lookupKV, nvmeStats, nvmeInsert, hexp]
  · intro host disk key v hv
    cases v <;> simp_all [parse_nvme_smartctl_data, lookupKV, nvmeStats,
      nvmeInsert, insertKV, PyVal.isList]

/-- C8 witness. -/
theorem c8_witness :
    (keysOf (explodeFields "temperature_sensors" 0 [PyVal.int 48, PyVal.int 61])).Nodup
    ∧ parse_nvme_smartctl_data "h" "nvme1"
        (PyVal.dict [("nvme_smart_health_information_log",
                      PyVal.dict [("temperature_sensors",
                                   PyVal.list [PyVal.int 48, PyVal.int 61])])])
      = some { measurement := "smartctl." ++ "nvme1",
               tags := [("host", PyVal.str "h")],
               fields := explodeFields "temperature_sensors" 0
                 [PyVal.int 48, PyVal.int 61] }
    ∧ PyVal.isList (PyVal.int 7) = false
    ∧ parse_nvme_smartctl_data "h" "nvme1"
        (PyVal.dict [("nvme_smart_health_information_log",
                      PyVal.dict [("power_cycles", PyVal.int 7)])])
      = some { measurement := "smartctl." ++ "nvme1",
               tags := [("host", PyVal.str "h")],
               fields := [("power_cycles", PyVal.int 7)] } :=
  ⟨by decide, c8_nvme_list_explosion.1 "h" "nvme1" "temperature_sensors"
      [PyVal.int 48, PyVal.int 61] (by decide), rfl,
   c8_nvme_list_explosion.2.1 "h" "nvme1" "power_cycles" (PyVal.int 7) rfl⟩

/-- C4 counterexample: a raw string reading in the sensors input passes
through normalization unchanged, so a field value can be a non-numeric
string; the universal claim over every input fails. -/
theorem c4_cex_string_passes_through :
    parse_sensors_data "h"
      (PyVal.dict [("chip-x", PyVal.dict
        [("Adapter", PyVal.str "a"),
         ("g", PyVal.dict [("lbl", PyVal.str "oops")])])])
    = some [{ measurement := "sensors.chip",
              tags := [("host", PyVal.str "h"), ("adapter", PyVal.str "a")],
              fields := [("g_lbl", PyVal.str "oops")] }]
    ∧ PyVal.isNum (PyVal.str "oops") = false :=
  ⟨rfl, rfl⟩

/-- C4 (amended): whenever the input values sit at the numeric positions
of the documented input contracts (sensor reading values numeric, NVMe
health-log scalars and list elements numeric, SATA normalized and raw
numeric values numeric), every field value of every produced measurement
is numeric; the VM-disk field is numeric unconditionally. -/
theorem c4_amended_numeric_fields :
    (∀ (host : String) (sd : PyVal) (ms : List Measurement),
      sensorsNumericB sd = true → parse_sensors_data host sd = some ms →
      ∀ m ∈ ms, ∀ p ∈ m.fields, PyVal.isNum p.2 = true)
    ∧ (∀ (host disk : String) (d : PyVal) (m : Measurement),
      smartNumericB disk d = true → parse_smartctl_data host disk d = some m →
      ∀ p ∈ m.fields, PyVal.isNum p.2 = true)
    ∧ (∀ (host vm_id vm_name : String) (dat : Option PyVal) (m : Measurement),
      parse_vm_disk_data host vm_id vm_name dat = some m →
      ∀ p ∈ m.fields, PyVal.isNum p.2 = true) :=
  ⟨fun host sd ms hn h => parse_sensors_isNum host sd ms h hn,
   fun host disk d m hn h => parse_smartctl_isNum host disk d m h hn,
   fun host vm_id vm_name dat m h => by
     obtain ⟨total, hf⟩ := parse_vm_fields host vm_id vm_name dat m h
     rw [hf]
     intro p hp
     rw [List.mem_singleton.mp hp]
     rfl⟩

/-- C4 witness. -/
theorem c4_witness :
    sensorsNumericB (PyVal.dict [("c-x", PyVal.dict
        [("Adapter", PyVal.str "a"),
         ("g", PyVal.dict [("t", PyVal.int 5)])])]) = true
    ∧ parse_sensors_data "h" (PyVal.dict [("c-x", PyVal.dict
        [("Adapter", PyVal.str "a"),
         ("g", PyVal.dict [("t", PyVal.int 5)])])])
      = some [{ measurement := "sensors.c",
                tags := [("host", PyVal.str "h"), ("adapter", PyVal.str "a")],
                fields := [("g_t", PyVal.int 5)] }]
    ∧ (∀ m ∈ [({ measurement := "sensors.c",
                 tags := [("host", PyVal.str "h"), ("adapter", PyVal.str "a")],
                 fields := [("g_t", PyVal.int 5)] } : Measurement)],
        ∀ p ∈ m.fields, PyVal.isNum p.2 = true)
    ∧ smartNumericB "sda" (PyVal.dict []) = true
    ∧ parse_smartctl_data "h" "sda" (PyVal.dict [])
      = some { measurement := "smartctl.sda",
               tags := [("host", PyVal.str "h")], fields := [] }
    ∧ (∀ p ∈ ({ measurement := "smartctl.sda",
                tags := [("host", PyVal.str "h")],
                fields := [] } : Measurement).fields, PyVal.isNum p.2 = true)
    ∧ parse_vm_disk_data "h" "100" "vm1" (some (PyVal.list []))
      = some { measurement := "system",
               tags := [("host", PyVal.str "vm1"), ("nodename", PyVal.str "h"),
                        ("object", PyVal.str "qemu"), ("vmid", PyVal.str "100")],
               fields := [("disk", PyVal.float 0)] }
    ∧ (∀ p ∈ ({ measurement := "system",
                tags := [("host", PyVal.str "vm1"), ("nodename", PyVal.str "h"),
                         ("object", PyVal.str "qemu"), ("vmid", PyVal.str "100")],
                fields := [("disk", PyVal.float 0)] } : Measurement).fields,
        PyVal.isNum p.2 = true) :=
  ⟨rfl, rfl,
   c4_amended_numeric_fields.1 "h"
     (PyVal.dict [("c-x", PyVal.dict
       [("Adapter", PyVal.str "a"), ("g", PyVal.dict [("t", PyVal.int 5)])])])
     _ rfl rfl,
   rfl, rfl,
   c4_amended_numeric_fields.2.1 "h" "sda" (PyVal.dict []) _ rfl rfl,
   rfl,
   c4_amended_numeric_fields.2.2 "h" "100" "vm1" (some (PyVal.list [])) _ rfl⟩

/-- C9: the orchestrator trims an enumerated disk named "nvme0n1" to
"nvme0" before passing it to the smartctl invocation and the SMART
extractor (both receive `trimDiskName "nvme0n1" = "nvme0"`), the resulting
measurement is named "smartctl.nvme0", and a disk identifier not starting
with "nvme" is passed through unchanged. -/
theorem c9_nvme_namespace_trim :
    ∀ (host d : String) (smart : String → Option PyVal) (m1 m2 : Measurement),
      strStartsWith d "nvme" = false →
      parse_smartctl_data host "nvme0" (get_smartctl_data (smart "nvme0")) = some m1 →
      parse_smartctl_data host d (get_smartctl_data (smart d)) = some m2 →
      collect_measurements host (some (PyVal.dict [])) ["nvme0n1", d] smart
          [] (fun _ => Option.none) false
        = some [m1, m2]
      ∧ m1.measurement = "smartctl.nvme0" := by
  intro host d smart m1 m2 hd h1 h2
  have ht1 : trimDiskName "nvme0n1" = "nvme0" := rfl
  have ht2 : trimDiskName d = d := by simp [trimDiskName, hd]
  constructor
  · simp [collect_measurements, disksLoop, get_sensors_data, parse_sensors_data,
      sensorsChips, ht1, ht2, h1, h2]
  · exact (parse_smartctl_measurement host "nvme0" _ m1 h1).trans rfl

/-- C9 witness. -/
theorem c9_witness :
    strStartsWith "sda" "nvme" = false
    ∧ parse_smartctl_data "h" "nvme0"
        (get_smartctl_data ((fun _ : String => some (PyVal.dict [])) "nvme0"))
      = some { measurement := "smartctl.nvme0",
               tags := [("host", PyVal.str "h")], fields := [] }
    ∧ parse_smartctl_data "h" "sda"
        (get_smartctl_data ((fun _ : String => some (PyVal.dict [])) "sda"))
      = some { measurement := "smartctl.sda",
               tags := [("host", PyVal.str "h")], fields := [] }
    ∧ (collect_measurements "h" (some (PyVal.dict [])) ["nvme0n1", "sda"]
          (fun _ : String => some (PyVal.dict [])) [] (fun _ => Option.none) false
        = some [{ measurement := "smartctl.nvme0",
                  tags := [("host", PyVal.str "h")], fields := [] },
                { measurement := "smartctl.sda",
                  tags := [("host", PyVal.str "h")], fields := [] }]
       ∧ ({ measurement := "smartctl.nvme0",
            tags := [("host", PyVal.str "h")],
            fields := [] } : Measurement).measurement = "smartctl.nvme0") :=
  ⟨rfl, rfl, rfl,
   c9_nvme_namespace_trim "h" "sda" (fun _ : String => some (PyVal.dict []))
     { measurement := "smartctl.nvme0", tags := [("host", PyVal.str "h")],
       fields := [] }
     { measurement := "smartctl.sda", tags := [("host", PyVal.str "h")],
       fields := [] }
     rfl rfl rfl⟩

/-- C10: the trim cuts at the last occurrence of the letter `n`, so an
enumerated disk named exactly "nvme0" is trimmed to the empty string: the
extractor is invoked with disk name `""` and the batch's single measurement
is named exactly "smartctl." (empty disk part). -/
theorem c10_bare_controller_trims_to_empty :
    ∀ (host : String) (smart : String → Option PyVal) (m : Measurement),
      parse_smartctl_data host "" (get_smartctl_data (smart "")) = some m →
      trimDiskName "nvme0" = ""
      ∧ collect_measurements host (some (PyVal.dict [])) ["nvme0"] smart
          [] (fun _ => Option.none) false = some [m]
      ∧ m.measurement = "smartctl." := by
  intro host smart m h1
  have ht : trimDiskName "nvme0" = "" := rfl
  refine ⟨rfl, ?_, ?_⟩
  · simp [collect_measurements, disksLoop, get_sensors_data, parse_sensors_data,
      sensorsChips, ht, h1]
  · exact (parse_smartctl_measurement host "" _ m h1).trans rfl

/-- C10 witness. -/
theorem c10_witness :
    parse_smartctl_data "h" ""
        (get_smartctl_data ((fun _ : String => some (PyVal.dict [])) ""))
      = some { measurement := "smartctl.",
               tags := [("host", PyVal.str "h")], fields := [] }
    ∧ (trimDiskName "nvme0" = ""
       ∧ collect_measurements "h" (some (PyVal.dict [])) ["nvme0"]
           (fun _ : String => some (PyVal.dict [])) [] (fun _ => Option.none) false
         = some [{ measurement := "smartctl.",
                   tags := [("host", PyVal.str "h")], fields := [] }]
       ∧ ({ measurement := "smartctl.",
            tags := [("host", PyVal.str "h")],
            fields := [] } : Measurement).measurement = "smartctl.") :=
  ⟨rfl, c10_bare_controller_trims_to_empty "h"
     (fun _ : String => some (PyVal.dict []))
     { measurement := "smartctl.", tags := [("host", PyVal.str "h")],
       fields := [] } rfl⟩
